import Mathlib

/-!
Shallow embedding of the porto task launcher (src/task.cpp, src/task.hpp).

The embedding models the pure decision logic of the launcher: error
construction and propagation, the ordering of the child initialization
pipeline, the pipe protocol of the intermediate process, the TaskHandle
state machine, bind-mount destination resolution, the read-only remount
filter, capability trimming and MAC generation.  Kernel calls and the
utility wrappers that live outside this repository (path, mount, netlink,
crc32 helpers) are modelled by their contracts: they appear either as
oracle parameters (e.g. the realpath resolver, the step-failure oracle) or
as small concrete models noted in the doc comments.
-/

/-- Error kinds of TError (EError) that task.cpp actually constructs;
success is represented by Option.none rather than a kind. -/
inductive EKind where
  | Unknown
  | InvalidValue
  | ResourceNotAvailable
  | NoSpace
  deriving DecidableEq, Repr

/-- A TError record: kind, errno and message (the external Error encoding
carries exactly these three fields). -/
structure Err where
  kind : EKind
  errno : Int
  msg : String
  deriving DecidableEq, Repr

/-- errno EINVAL. -/
def EINVAL : Int := 22

/-- errno ENOMEM. -/
def ENOMEM : Int := 12

/-- errno ENODATA. -/
def ENODATA : Int := 61

/-- Signal SIGKILL. -/
def SIGKILL : Int := 9

/-- Capability index CAP_SETPCAP (linux/capability.h). -/
def CAP_SETPCAP : Nat := 8

-- ------------------------------------------------------------------
-- C9: GenerateHw (task.cpp:608-622)
-- ------------------------------------------------------------------

/-- One lowercase hex digit, as produced by printf %x. -/
def hexDigit (n : Nat) : Char :=
  if n < 10 then Char.ofNat (48 + n) else Char.ofNat (87 + n)

/-- Two lowercase hex digits, as produced by printf %02x on a value < 256. -/
def hexByte (n : Nat) : String :=
  String.mk [hexDigit (n / 16 % 16), hexDigit (n % 16)]

/-- GenerateHw (task.cpp:608): sprintf(buf, "02:%02x:%02x:%02x:%02x:%02x",
(n & 0xFF) >> 0, (h & 0xFF000000) >> 24, (h & 0x00FF0000) >> 16,
(h & 0x0000FF00) >> 8, (h & 0x000000FF) >> 0) with n = Crc32(name),
h = Crc32(host).  Crc32 is an external helper (util/crc32.hpp), modelled
as an oracle returning a uint32_t value. -/
def GenerateHw (crc32 : String → Nat) (host name : String) : String :=
  let n := crc32 name
  let h := crc32 host
  "02:" ++ hexByte ((n &&& 0xFF) >>> 0)
  ++ ":" ++ hexByte ((h &&& 0xFF000000) >>> 24)
  ++ ":" ++ hexByte ((h &&& 0x00FF0000) >>> 16)
  ++ ":" ++ hexByte ((h &&& 0x0000FF00) >>> 8)
  ++ ":" ++ hexByte ((h &&& 0x000000FF) >>> 0)

-- ------------------------------------------------------------------
-- C10: TTask::Kill (task.cpp:1033-1044)
-- ------------------------------------------------------------------

/-- Outcome of TTask::Kill: a thrown C++ exception, a TError, or success. -/
inductive KillOutcome where
  | thrownEx
  | errK (e : Err)
  | okK
  deriving DecidableEq, Repr

/-- TTask::Kill (task.cpp:1033): throws when Pid is 0, otherwise calls
kill(2) (modelled by the oracle return value killRet and its errno) and
wraps a failure into an Unknown TError. -/
def TTaskKill (pid : Int) (killRet : Int) (errno : Int) : KillOutcome :=
  if pid = 0 then .thrownEx
  else if killRet ≠ 0 then
    .errK ⟨.Unknown, errno, "kill(" ++ toString pid ++ ")"⟩
  else .okK

-- ------------------------------------------------------------------
-- C7: wordexp handling in TTask::ChildExec (task.cpp:233-272)
-- ------------------------------------------------------------------

/-- wordexp return code WRDE_NOSPACE. -/
def WRDE_NOSPACE : Int := 1

/-- wordexp return code WRDE_BADCHAR. -/
def WRDE_BADCHAR : Int := 2

/-- wordexp return code WRDE_BADVAL. -/
def WRDE_BADVAL : Int := 3

/-- wordexp return code WRDE_CMDSUB. -/
def WRDE_CMDSUB : Int := 4

/-- wordexp return code 5 (syntax error). -/
def WRDE_SYNTAXERR : Int := 5

/-- The switch on the wordexp return value in TTask::ChildExec
(task.cpp:244-258).  Returns none for ret = 0 (execution proceeds to
execvpe); every other value returns a TError.  The C switch falls through
from `default:` into the WRDE_NOSPACE case, so unknown values share the
NOSPACE message. -/
def childExecWordexp (ret : Int) : Option Err :=
  if ret = WRDE_BADCHAR then
    some ⟨.Unknown, EINVAL, "wordexp(): illegal occurrence of newline or one of |, &, ;, <, >, (, ), \x7b, \x7d"⟩
  else if ret = WRDE_BADVAL then
    some ⟨.Unknown, EINVAL, "wordexp(): undefined shell variable was referenced"⟩
  else if ret = WRDE_CMDSUB then
    some ⟨.Unknown, EINVAL, "wordexp(): command substitution is not supported"⟩
  else if ret = WRDE_SYNTAXERR then
    some ⟨.Unknown, EINVAL, "wordexp(): syntax error"⟩
  else if ret = 0 then none
  else
    some ⟨.Unknown, EINVAL, "wordexp(): error " ++ toString ret⟩

-- ------------------------------------------------------------------
-- C5: TTask::ChildApplyCapabilities (task.cpp:181-211)
-- ------------------------------------------------------------------

/-- Capability operations performed by ChildApplyCapabilities: the SetCap
wrapper (capset) and the DropBoundedCap wrapper (PR_CAPBSET_DROP). -/
inductive CapAction where
  | setCap (eff perm inh : Nat)
  | dropBounded (i : Nat)
  deriving DecidableEq, Repr

/-- TTask::ChildApplyCapabilities (task.cpp:181) as the sequence of
capability operations it performs.  For a non-root credential it returns
immediately; for root it sets effective = permitted = ~0 (uint64) and
inheritable = Env->Caps, then drops from the bounding set every index
0 <= i <= lastCap whose bit is clear in Caps, skipping CAP_SETPCAP inside
the loop and dropping it after the loop when its bit is clear. -/
def ChildApplyCapabilities (isRoot : Bool) (caps lastCap : Nat) : List CapAction :=
  if !isRoot then []
  else
    CapAction.setCap (2 ^ 64 - 1) (2 ^ 64 - 1) caps ::
    (((List.range (lastCap + 1)).filter
        (fun i => !caps.testBit i && i != CAP_SETPCAP)).map CapAction.dropBounded
      ++ (if !caps.testBit CAP_SETPCAP then [CapAction.dropBounded CAP_SETPCAP] else []))

-- ------------------------------------------------------------------
-- C4: TTask::ChildBindDirectores (task.cpp:287-322)
-- ------------------------------------------------------------------

/-- One bind_map entry (TBindMap, task.hpp:30), with string paths. -/
structure BindEntryS where
  src : String
  dest : String
  rdonly : Bool
  deriving DecidableEq, Repr

/-- Mount actions emitted by ChildBindDirectores: the bind mount itself
(the BindDir/BindFile variants are collapsed into one action; the claims
do not distinguish them) and the MS_REMOUNT|MS_BIND remount used to clear
nosuid/noexec/nodev when a new mount namespace is used. -/
inductive MountAct where
  | bindMount (src dest : String) (rdonly : Bool)
  | remountBind (dest : String) (rdonly : Bool)
  deriving DecidableEq, Repr

/-- Modelled external StringStartsWith (util/string.hpp): string prefix
test, phrased over the character lists so it evaluates by kernel
reduction. -/
def strStartsWith (s p : String) : Bool :=
  p.data.isPrefixOf s.data

/-- Modelled external TPath::operator/ contract: joins two paths with a
single separating slash (an absolute right-hand side already starts with
one). -/
def pathJoin (a b : String) : String :=
  if strStartsWith b "/" then a ++ b else a ++ "/" ++ b

/-- The destination resolution of ChildBindDirectores (task.cpp:289-294):
Root/Dest for an absolute Dest and Root/Cwd/Dest for a relative one
(TPath::IsAbsolute is "starts with a slash"). -/
def resolvedBindDest (root cwd : String) (b : BindEntryS) : String :=
  if strStartsWith b.dest "/" then pathJoin root b.dest
  else pathJoin (pathJoin root cwd) b.dest

/-- TTask::ChildBindDirectores (task.cpp:287): processes the bind map in
order; for each entry it resolves the destination, rejects the entry with
an InvalidValue error when the resolved real path (realPath models the
external TPath::RealPath resolver) does not start with the root string
(StringStartsWith), otherwise performs the bind mount and, under a new
mount namespace, the MS_REMOUNT|MS_BIND remount.  Returns the mount
actions performed plus the first error, stopping at that error. -/
def ChildBindDirectores (root cwd : String) (realPath : String → String)
    (newMountNs : Bool) : List BindEntryS → List MountAct × Option Err
  | [] => ([], none)
  | b :: rest =>
    let dest := resolvedBindDest root cwd b
    if !(strStartsWith (realPath dest) root) then
      ([], some ⟨.InvalidValue, 0,
        "Container bind mount " ++ b.src ++ " resolves to root "
        ++ realPath dest ++ " (" ++ root ++ ")"⟩)
    else
      let acts := MountAct.bindMount b.src dest b.rdonly ::
        (if newMountNs then [MountAct.remountBind dest b.rdonly] else [])
      let r := ChildBindDirectores root cwd realPath newMountNs rest
      (acts ++ r.1, r.2)

/-- The claim's (spec's) notion of the resolved real path remaining within
root: equal to root or a descendant of it at a path-component boundary. -/
def specWithinRoot (root p : String) : Bool :=
  p == root || strStartsWith p (root ++ "/")

/-- A realpath resolver exhibiting the boundary case: the single symlink
root/lnk resolves to /ab, a path outside root = /a that nevertheless has
the root string as a prefix. -/
def rpEscape : String → String :=
  fun s => if s = "/a/lnk" then "/ab" else s

-- ------------------------------------------------------------------
-- C8: TTask::ChildRemountRootRo (task.cpp:428-473)
-- ------------------------------------------------------------------

/-- Component-level path as used by the mount-table logic: the comps are
the path components, and abs records whether the path as written was
absolute (the NormalPath of a relative path stays relative, so a relative
Dest never equals an absolute inner path). -/
structure MPath where
  abs : Bool
  comps : List String
  deriving DecidableEq, Repr

/-- Modelled external TPath::InnerPath contract: Root.InnerPath(m) yields
the path of m inside root (non-empty even when m equals root, where the
real helper yields "/") and the empty path -- modelled as none -- when m
is not under root. -/
def innerPath (root m : List String) : Option (List String) :=
  if root.isPrefixOf m then some (m.drop root.length) else none

/-- The fixed restricted-proc list roproc (task.cpp:331). -/
def roproc : List (List String) :=
  [["proc", "sysrq-trigger"], ["proc", "irq"], ["proc", "bus"]]

/-- One bind_map entry at the component level: ChildRemountRootRo compares
the raw Dest of the map -- not the resolved mount destination -- against
the mount path. -/
structure BindEntryC where
  dest : MPath
  rdonly : Bool
  deriving DecidableEq, Repr

/-- TTask::ChildRemountRootRo (task.cpp:428): under root_rdonly with no
loop image it walks the mount snapshot and remounts
MS_REMOUNT|MS_BIND|MS_RDONLY every mount point whose path lies inside
root, skipping a mount when some restricted-proc path is at or beneath it
(path.InnerPath(dir) non-empty) or when its root-relative path equals the
NormalPath of some bind_map Dest as written (both sides assumed
normalized).  Returns the list of remounted mount points. -/
def ChildRemountRootRo (rootRdOnly loopEmpty : Bool) (root : List String)
    (binds : List BindEntryC) (snapshot : List (List String)) :
    List (List String) :=
  if !rootRdOnly || !loopEmpty then []
  else
    snapshot.filter fun m =>
      match innerPath root m with
      | none => false
      | some path =>
        !(roproc.any fun dir => path.isPrefixOf dir) &&
        !(binds.any fun b => b.dest == MPath.mk true path)

/-- The claim's resolved bind destination at the component level:
root ++ dest for an absolute dest, root ++ cwd ++ dest for a relative
one. -/
def bindDestComps (root cwd : List String) (b : BindEntryC) : List String :=
  if b.dest.abs then root ++ b.dest.comps else root ++ cwd ++ b.dest.comps

-- ------------------------------------------------------------------
-- C1 / C6: the TaskHandle state (task.hpp:133-141), TTask::Start's
-- supervisor branch (task.cpp:980-1013) and the other public operations
-- ------------------------------------------------------------------

/-- ETaskState (task.hpp:138). -/
inductive TState where
  | Stopped
  | Started
  deriving DecidableEq, Repr

/-- The handle fields the claims speak about: State, Pid and ExitStatus,
plus the ghost flag exitRec marking that an exit status has been recorded
(set by Exit and by the failure tail of Start, cleared when ExitStatus is
re-initialized to 0); the plain int ExitStatus cannot distinguish Exit(0)
from "never exited". -/
structure Handle where
  state : TState
  pid : Int
  exitStatus : Int
  exitRec : Bool
  deriving DecidableEq, Repr

/-- Outcome of the supervisor tail of Start after the PID word was read:
the updated handle, the pids SIGKILLed, the returned error and whether the
TaskEnv reference was released (ClearEnv). -/
structure StartOutcome where
  handle : Handle
  kills : List Int
  result : Option Err
  envReleased : Bool
  deriving DecidableEq, Repr

/-- The fabricated error of the nonzero-status / no-deserialized-error
path (task.cpp:1004). -/
def startStatusErr (errno status : Int) : Err :=
  ⟨.InvalidValue, errno,
   "Container couldn't start due to resource limits (child terminated with "
   ++ toString status ++ ")"⟩

/-- TTask::Start, supervisor side after a successful read of the PID word
(task.cpp:986-1013).  Pid takes the word read from the SpawnPipe; deser is
the result of TError::Deserialize (none when the pipe hit EOF with no
error bytes); status is the intermediate exit status collected by waitpid.
When an error was deserialized or status is non-zero, the reported pid is
SIGKILLed when positive, Pid and ExitStatus become 0 and -1, and the
deserialized error (or the fabricated one) is returned; otherwise the
handle is marked Started and the TaskEnv reference is released. -/
def startFinish (h : Handle) (pidWord : Int) (deser : Option Err)
    (status errno : Int) : StartOutcome :=
  let h1 : Handle := { h with pid := pidWord }
  if deser.isSome || status != 0 then
    { handle := { h1 with pid := 0, exitStatus := -1, exitRec := true },
      kills := if pidWord > 0 then [pidWord] else [],
      result := some (deser.getD (startStatusErr errno status)),
      envReleased := false }
  else
    { handle := { h1 with state := .Started },
      kills := [], result := none, envReleased := true }

/-- The public TaskHandle operations the claims quantify over.  The Bool
and Option arguments are the environment-dependent outcomes: for opStart,
early is a CreateCwd/pipe2/fork failure before the pipe read, readOk
whether read returned a full PID word, and the rest feeds startFinish; for
opHasCorrectFreezer, getErr is a GetTaskCgroups failure, mismatch a
freezer path mismatch and zombie the IsZombie probe. -/
inductive HOp where
  | opStart (early readOk : Bool) (pidWord : Int) (deser : Option Err)
      (status errno : Int)
  | opExit (st : Int)
  | opRestore (p : Int)
  | opKill (sig : Int)
  | opHasCorrectParent
  | opHasCorrectFreezer (getErr mismatch zombie : Bool)
  | opFixCgroups
  deriving DecidableEq, Repr

/-- One public operation applied to the handle fields.
opStart: task.cpp:849-1014 (Pid := 0 on entry, ExitStatus := 0 once the
cwd exists, then the startFinish tail); opExit: task.cpp:1028 records the
status and stops; opRestore: task.cpp:1103 unconditionally marks Started;
opHasCorrectFreezer: task.cpp:1077 demotes a non-zombie with a freezer
mismatch to Stopped with Pid 0; opKill, opHasCorrectParent and
opFixCgroups do not modify the handle fields. -/
def stepH (h : Handle) : HOp → Handle
  | .opStart early readOk pidWord deser status errno =>
    let h1 : Handle := { h with pid := 0 }
    if early then h1
    else
      let h2 : Handle := { h1 with exitStatus := 0, exitRec := false }
      if !readOk then h2
      else (startFinish h2 pidWord deser status errno).handle
  | .opExit st => { h with exitStatus := st, exitRec := true, state := .Stopped }
  | .opRestore p =>
    { h with exitStatus := 0, exitRec := false, pid := p, state := .Started }
  | .opKill _ => h
  | .opHasCorrectParent => h
  | .opHasCorrectFreezer getErr mismatch zombie =>
    if !getErr && mismatch && !zombie then { h with pid := 0, state := .Stopped }
    else h
  | .opFixCgroups => h

/-- runH: a sequence of public operations. -/
def runH (h : Handle) (ops : List HOp) : Handle :=
  ops.foldl stepH h

/-- The claimed invariant: a Started handle has a non-zero PID, a Stopped
handle has PID zero or a recorded exit status. -/
def HInv (h : Handle) : Prop :=
  (h.state = TState.Started → h.pid ≠ 0) ∧
  (h.state = TState.Stopped → (h.pid = 0 ∨ h.exitRec = true))

/-- Protocol side conditions of the amended C6 claim: Restore is called
with a non-zero pid, Start only on a handle that is not currently Started,
and a Start that reaches the success branch read a positive PID word (the
intermediate protocol guarantees this: it exits non-zero after a failed
clone). -/
def ValidOp (h : Handle) : HOp → Prop
  | .opStart _ _ pidWord deser status _ =>
    h.state ≠ TState.Started ∧ (deser = none ∧ status = 0 → 0 < pidWord)
  | .opRestore p => p ≠ 0
  | _ => True

/-- ValidOp holding along a whole operation sequence. -/
def ValidSeq (h : Handle) : List HOp → Prop
  | [] => True
  | op :: ops => ValidOp h op ∧ ValidSeq (stepH h op) ops

-- ------------------------------------------------------------------
-- C2: the intermediate branch of TTask::Start (task.cpp:887-978) and
-- TTask::ReportPid / TTask::Abort (task.cpp:101-112)
-- ------------------------------------------------------------------

/-- Events observable from the intermediate process: a PID word or
serialized error bytes on the SpawnPipe, the zero sentinel on the
SyncPipe, and the process exit. -/
inductive PEvent where
  | pidWord (p : Int)
  | errBytes (e : Err)
  | syncSignal
  | exited (code : Nat)
  deriving DecidableEq, Repr

/-- True exactly on pidWord events. -/
def isPidWord : PEvent → Bool
  | .pidWord _ => true
  | _ => false

/-- ReportPid(-1) followed by Abort (serialize, exit(EXIT_FAILURE)):
the event trace of every pre-clone failure (task.cpp:898-946). -/
def failTrace (e : Err) : List PEvent :=
  [.pidWord (-1), .errBytes e, .exited 1]

/-- The clone() failure error (task.cpp:955): ENOMEM maps to
ResourceNotAvailable, anything else to Unknown. -/
def cloneErr (errno : Int) : Err :=
  ⟨if errno = ENOMEM then .ResourceNotAvailable else .Unknown, errno, "clone()"⟩

/-- The sync-pipe partial-write error (task.cpp:973); ret is the write
return value, result the zero sentinel. -/
def syncWriteErr (ret result : Int) : Err :=
  ⟨.Unknown, 0, "Partial write to child sync pipe ("
    ++ toString ret ++ " != " ++ toString result ++ ")"⟩

/-- The intermediate branch of TTask::Start (task.cpp:887-978) as the
ordered event trace it emits.  The Option Err oracles are the outcomes of
the cgroup attach loop, the client-mount-namespace entry, ReopenStdio,
ParentNs.Enter and the sync pipe2 call; clonePid and cloneErrno are the
clone return value and errno; netEnabled is config().network().enabled();
isoErr is the IsolateNet outcome; syncRet is the sync-pipe write return
value (4 = sizeof(int) on success). -/
def intermediateTrace (cgErr mntErr stdioErr enterErr pipeErr : Option Err)
    (clonePid cloneErrno : Int) (netEnabled : Bool)
    (isoErr : Option Err) (syncRet : Int) : List PEvent :=
  match cgErr with
  | some e => failTrace e
  | none =>
  match mntErr with
  | some e => failTrace e
  | none =>
  match stdioErr with
  | some e => failTrace e
  | none =>
  match enterErr with
  | some e => failTrace e
  | none =>
  match pipeErr with
  | some e => failTrace e
  | none =>
    PEvent.pidWord clonePid ::
    (if clonePid < 0 then [.errBytes (cloneErr cloneErrno), .exited 1]
     else
       match (if netEnabled then isoErr else none) with
       | some e => [.errBytes e, .exited 1]
       | none =>
         if syncRet = 4 then [.syncSignal, .exited 0]
         else [.errBytes (syncWriteErr syncRet 0), .exited 1])

-- ------------------------------------------------------------------
-- C3: TTask::ChildCallback (task.cpp:744-843) and ChildFn/Abort
-- (task.cpp:107-121)
-- ------------------------------------------------------------------

/-- The steps of the grandchild pipeline, in source order.  chdirCwd is
the Env->Cwd.Chdir() call of either branch. -/
inductive CStep where
  | syncRead
  | closeSpawnReset
  | applyLimits
  | setSidStep
  | umaskStep
  | slaveRemount
  | procRemount
  | prepLoop
  | enableNet
  | setParentNsStep
  | chrootParentStep
  | mountRootFs
  | bindDirs
  | remountRo
  | isolateFs
  | chdirCwd
  | setHostnameStep
  | sharedRemount
  | applyCaps
  | dropPrivs
  | execStep
  deriving DecidableEq, Repr

/-- The statically ordered step list of ChildCallback (task.cpp:744-843)
for the four flags that guard steps: NewMountNs, Isolate, NetCfg.NewNetNs
and ParentNs.Mnt.IsOpened().  The two isolate-guarded blocks (proc
remount, ChildPrepareLoop) are consecutive ifs in the source. -/
def childSteps (newMountNs isolate newNetNs parentMnt : Bool) : List CStep :=
  [.syncRead, .closeSpawnReset, .applyLimits, .setSidStep, .umaskStep]
  ++ (if newMountNs then [.slaveRemount] else [])
  ++ (if isolate then [.procRemount] else [])
  ++ (if isolate then [.prepLoop] else [])
  ++ (if newNetNs then [.enableNet] else [])
  ++ (if parentMnt then [.setParentNsStep, .chrootParentStep, .chdirCwd]
      else [.mountRootFs, .bindDirs, .remountRo, .isolateFs, .chdirCwd,
            .setHostnameStep])
  ++ (if newMountNs then [.sharedRemount] else [])
  ++ [.applyCaps, .dropPrivs, .execStep]

/-- The step sequence named by the C3 claim, in the claim's order (the
claim does not mention ChildPrepareLoop or ChildEnableNet; "setsid and
umask(0)" and "close of the SpawnPipe read end and reset of signal
handlers" name the same source statements as the childSteps entries). -/
def claimedSteps (newMountNs isolate parentMnt : Bool) : List CStep :=
  [.syncRead, .closeSpawnReset, .applyLimits, .setSidStep, .umaskStep]
  ++ (if newMountNs then [.slaveRemount] else [])
  ++ (if isolate then [.procRemount] else [])
  ++ (if parentMnt then [.setParentNsStep, .chrootParentStep, .chdirCwd]
      else [.mountRootFs, .bindDirs, .remountRo, .isolateFs, .chdirCwd,
            .setHostnameStep])
  ++ (if newMountNs then [.sharedRemount] else [])
  ++ [.applyCaps, .dropPrivs, .execStep]

/-- Fail-fast runner of a step list: the first failing step (per the
oracle) stops execution.  Returns the executed steps and the error. -/
def runSteps (fails : CStep → Option Err) : List CStep → List CStep × Option Err
  | [] => ([], none)
  | s :: rest =>
    match fails s with
    | some e => ([s], some e)
    | none =>
      let r := runSteps fails rest
      (s :: r.1, r.2)

/-- The sync-pipe short-read error (task.cpp:748): errno, or ENODATA when
errno is zero. -/
def syncReadErr (errno : Int) : Err :=
  ⟨.Unknown, if errno = 0 then ENODATA else errno,
   "partial read from child sync pipe"⟩

/-- The effective failure oracle of ChildCallback: the syncRead step fails
with the partial-read error exactly when fewer than sizeof(int) = 4 bytes
were read; all other steps follow the step-failure oracle. -/
def childOracle (syncReadN errno : Int) (fails : CStep → Option Err) :
    CStep → Option Err :=
  fun s =>
    if s = .syncRead then
      (if syncReadN = 4 then none else some (syncReadErr errno))
    else fails s

/-- TTask::ChildCallback (task.cpp:744-843): the fail-fast run of the
pipeline under the effective oracle. -/
def ChildCallback (newMountNs isolate newNetNs parentMnt : Bool)
    (syncReadN errno : Int) (fails : CStep → Option Err) :
    List CStep × Option Err :=
  runSteps (childOracle syncReadN errno fails)
    (childSteps newMountNs isolate newNetNs parentMnt)

/-- ChildFn + Abort (task.cpp:107-121): when ChildCallback returns an
error, the grandchild serializes it to the SpawnPipe and exits
EXIT_FAILURE. -/
def childFnTrace (r : List CStep × Option Err) : List PEvent :=
  match r.2 with
  | some e => [.errBytes e, .exited 1]
  | none => []

-- ==================================================================
-- Theorems
-- ==================================================================

/-- The mask-and-shift idiom of GenerateHw extracts a byte:
(h & (0xFF << k)) >> k is the k-th byte h / 2^k % 256. -/
theorem and_ff_shift (h k : Nat) : (h &&& (255 <<< k)) >>> k = h / 2 ^ k % 256 := by
  have h256 : (256 : Nat) = 2 ^ 8 := by norm_num
  rw [h256, ← Nat.shiftRight_eq_div_pow]
  apply Nat.eq_of_testBit_eq
  intro i
  simp only [Nat.testBit_shiftRight, Nat.testBit_and, Nat.testBit_shiftLeft,
             Nat.testBit_mod_two_pow]
  rw [show (255 : Nat) = 2 ^ 8 - 1 by norm_num, Nat.testBit_two_pow_sub_one,
      Nat.add_sub_cancel_left]
  simp [Nat.le_add_right, Bool.and_comm]

/-- The low-byte mask: x & 0xFF = x % 256. -/
theorem maskByte0 (x : Nat) : (x &&& 0xFF) >>> 0 = x % 256 := by
  have h : (0xFF : Nat) = 255 <<< 0 := by rw [Nat.shiftLeft_eq]
  rw [h, and_ff_shift]
  norm_num

/-- Byte 3 (most significant) mask of GenerateHw. -/
theorem maskByte24 (x : Nat) : (x &&& 0xFF000000) >>> 24 = x / 2 ^ 24 % 256 := by
  have h : (0xFF000000 : Nat) = 255 <<< 24 := by rw [Nat.shiftLeft_eq]
  rw [h, and_ff_shift]

/-- Byte 2 mask of GenerateHw. -/
theorem maskByte16 (x : Nat) : (x &&& 0x00FF0000) >>> 16 = x / 2 ^ 16 % 256 := by
  have h : (0x00FF0000 : Nat) = 255 <<< 16 := by rw [Nat.shiftLeft_eq]
  rw [h, and_ff_shift]

/-- Byte 1 mask of GenerateHw. -/
theorem maskByte8 (x : Nat) : (x &&& 0x0000FF00) >>> 8 = x / 2 ^ 8 % 256 := by
  have h : (0x0000FF00 : Nat) = 255 <<< 8 := by rw [Nat.shiftLeft_eq]
  rw [h, and_ff_shift]

/-- C9: GenerateHw(hostname, name) always returns the MAC string
02:NN:HH:HH:HH:HH where NN is the low byte of CRC32(name) and the four HH
bytes are CRC32(hostname) in big-endian order (most significant byte
first).  Determinism on the (hostname, name) pair is immediate since
GenerateHw is a function of the two strings. -/
theorem generateHw_format (crc32 : String → Nat) (host name : String) :
    GenerateHw crc32 host name =
      "02:" ++ hexByte (crc32 name % 256)
      ++ ":" ++ hexByte (crc32 host / 2 ^ 24 % 256)
      ++ ":" ++ hexByte (crc32 host / 2 ^ 16 % 256)
      ++ ":" ++ hexByte (crc32 host / 2 ^ 8 % 256)
      ++ ":" ++ hexByte (crc32 host % 256) := by
  simp only [GenerateHw, maskByte0, maskByte24, maskByte16, maskByte8]

/-- C10: TTask::Kill(signal) throws exactly when Pid = 0; for a non-zero
Pid it returns an errno-wrapped Unknown error iff kill(2) failed, and
success otherwise. -/
theorem kill_spec (pid killRet errno : Int) :
    (TTaskKill pid killRet errno = KillOutcome.thrownEx ↔ pid = 0) ∧
    (pid ≠ 0 →
      ((TTaskKill pid killRet errno =
          KillOutcome.errK ⟨EKind.Unknown, errno, "kill(" ++ toString pid ++ ")"⟩)
        ↔ killRet ≠ 0) ∧
      (TTaskKill pid killRet errno = KillOutcome.okK ↔ killRet = 0)) := by
  unfold TTaskKill
  by_cases hp : pid = 0 <;> by_cases hk : killRet = 0 <;> simp [hp, hk]

theorem kill_spec_witness :
    (5 : Int) ≠ 0 ∧
    (TTaskKill 5 1 3 =
      KillOutcome.errK ⟨EKind.Unknown, 3, "kill(" ++ toString (5 : Int) ++ ")"⟩) :=
  ⟨by decide, ((kill_spec 5 1 3).2 (by decide)).1.mpr (by decide)⟩

/-- C7 counterexample: the wordexp command-substitution failure is mapped
to a TError of kind Unknown, not InvalidValue as the claim states. -/
theorem wordexp_cmdsub_kind_counterexample :
    childExecWordexp WRDE_CMDSUB =
      some ⟨EKind.Unknown, EINVAL, "wordexp(): command substitution is not supported"⟩ ∧
    EKind.Unknown ≠ EKind.InvalidValue := by
  constructor
  · rfl
  · decide

/-- C7 amended: every non-zero wordexp return value in ChildExec is mapped
to a descriptive error of kind Unknown carrying errno EINVAL; for a
command-substitution failure (WRDE_CMDSUB) the message mentions
"command substitution". -/
theorem wordexp_error_mapping (ret : Int) (hret : ret ≠ 0) :
    ∃ e, childExecWordexp ret = some e ∧ e.kind = EKind.Unknown ∧ e.errno = EINVAL ∧
      (ret = WRDE_CMDSUB → ∃ p q, e.msg = p ++ "command substitution" ++ q) := by
  by_cases h1 : ret = WRDE_BADCHAR
  · subst h1
    exact ⟨_, rfl, rfl, rfl, fun hc => absurd hc (by decide)⟩
  · by_cases h2 : ret = WRDE_BADVAL
    · subst h2
      exact ⟨_, rfl, rfl, rfl, fun hc => absurd hc (by decide)⟩
    · by_cases h3 : ret = WRDE_CMDSUB
      · subst h3
        refine ⟨_, rfl, rfl, rfl, fun _ => ⟨"wordexp(): ", " is not supported", ?_⟩⟩
        decide
      · by_cases h4 : ret = WRDE_SYNTAXERR
        · subst h4
          exact ⟨_, rfl, rfl, rfl, fun hc => absurd hc (by decide)⟩
        · refine ⟨⟨EKind.Unknown, EINVAL, "wordexp(): error " ++ toString ret⟩, ?_, rfl, rfl,
            fun hc => absurd hc h3⟩
          simp [childExecWordexp, h1, h2, h3, h4, hret]

theorem wordexp_error_mapping_witness :
    (4 : Int) ≠ 0 ∧
    (∃ e, childExecWordexp 4 = some e ∧ e.kind = EKind.Unknown ∧ e.errno = EINVAL ∧
      ((4 : Int) = WRDE_CMDSUB → ∃ p q, e.msg = p ++ "command substitution" ++ q)) :=
  ⟨by decide, wordexp_error_mapping 4 (by decide)⟩

/-- C5: for a root credential ChildApplyCapabilities first sets effective
and permitted to the full 64-bit mask and inheritable to env.caps, the set
of bounding-set drops is exactly the capability indices in 0..last_cap
whose bit is absent from env.caps, and CAP_SETPCAP (when dropped) is the
last operation; for a non-root credential no capability operation is
performed. -/
theorem childApplyCapabilities_spec (isRoot : Bool) (caps lastCap : Nat)
    (hcap : CAP_SETPCAP ≤ lastCap) :
    (isRoot = false → ChildApplyCapabilities isRoot caps lastCap = []) ∧
    (isRoot = true →
      (ChildApplyCapabilities isRoot caps lastCap).head? =
        some (CapAction.setCap (2 ^ 64 - 1) (2 ^ 64 - 1) caps) ∧
      (∀ i, CapAction.dropBounded i ∈ ChildApplyCapabilities isRoot caps lastCap ↔
        (i ≤ lastCap ∧ caps.testBit i = false)) ∧
      (caps.testBit CAP_SETPCAP = false →
        (ChildApplyCapabilities isRoot caps lastCap).getLast? =
          some (CapAction.dropBounded CAP_SETPCAP))) := by
  have hrep : ChildApplyCapabilities true caps lastCap =
      CapAction.setCap (2 ^ 64 - 1) (2 ^ 64 - 1) caps ::
      (((List.range (lastCap + 1)).filter
          (fun i => !caps.testBit i && i != CAP_SETPCAP)).map CapAction.dropBounded
        ++ (if !caps.testBit CAP_SETPCAP then [CapAction.dropBounded CAP_SETPCAP]
            else [])) := rfl
  constructor
  · intro h
    simp [ChildApplyCapabilities, h]
  · intro h
    subst h
    refine ⟨by rw [hrep]; rfl, ?_, ?_⟩
    · intro i
      rw [hrep]
      simp only [List.mem_cons, List.mem_append, List.mem_map, List.mem_filter,
                 List.mem_range]
      constructor
      · rintro (hc | ⟨j, ⟨hj1, hj2⟩, hj3⟩ | hc)
        · simp at hc
        · cases hj3
          simp only [Bool.and_eq_true, Bool.not_eq_true', bne_iff_ne] at hj2
          exact ⟨by omega, hj2.1⟩
        · by_cases hb : caps.testBit CAP_SETPCAP
          · simp [hb] at hc
          · rw [Bool.not_eq_true] at hb
            simp only [hb, Bool.not_false, if_pos, List.mem_singleton] at hc
            cases hc
            exact ⟨hcap, hb⟩
      · rintro ⟨hle, hbit⟩
        by_cases h8 : i = CAP_SETPCAP
        · subst h8
          refine Or.inr (Or.inr ?_)
          simp [hbit]
        · refine Or.inr (Or.inl ?_)
          exact ⟨i, ⟨by omega, by simp [hbit, h8]⟩, rfl⟩
    · intro hbit
      rw [hrep]
      simp only [hbit, Bool.not_false, if_pos]
      rw [← List.cons_append, List.getLast?_concat]

theorem childApplyCapabilities_spec_witness :
    CAP_SETPCAP ≤ 37 ∧
    (CapAction.dropBounded 3 ∈ ChildApplyCapabilities true 16 37 ↔
      (3 ≤ 37 ∧ Nat.testBit 16 3 = false)) :=
  ⟨by decide, (((childApplyCapabilities_spec true 16 37 (by decide)).2 rfl).2.1) 3⟩

/-- C4 counterexample: with root = "/a" and a bind destination whose real
path resolves to "/ab" -- a path that does not remain within root but does
start with the root string -- ChildBindDirectores raises no error and
mounts the entry, contradicting the claim that every entry escaping root
fails with InvalidValue and is never mounted. -/
theorem bind_escape_counterexample :
    specWithinRoot "/a"
      (rpEscape (resolvedBindDest "/a" "/w" ⟨"/src", "/lnk", false⟩)) = false ∧
    ChildBindDirectores "/a" "/w" rpEscape false [⟨"/src", "/lnk", false⟩] =
      ([MountAct.bindMount "/src" "/a/lnk" false], none) := by
  constructor
  · decide
  · decide

/-- C4 amended: the destination is resolved as root/dest for an absolute
dest and root/cwd/dest for a relative one, and whenever the real path of
the resolved destination does not start with the root string,
ChildBindDirectores fails with an InvalidValue error whose message
mentions "resolves to root" and mounts neither this entry nor any later
one. -/
theorem bind_dest_check (root cwd : String) (realPath : String → String)
    (newMountNs : Bool) (b : BindEntryS) (rest : List BindEntryS)
    (hesc : strStartsWith (realPath (resolvedBindDest root cwd b)) root = false) :
    resolvedBindDest root cwd b =
      (if strStartsWith b.dest "/" then pathJoin root b.dest
       else pathJoin (pathJoin root cwd) b.dest) ∧
    ∃ e, ChildBindDirectores root cwd realPath newMountNs (b :: rest) = ([], some e) ∧
      e.kind = EKind.InvalidValue ∧
      ∃ p q, e.msg = p ++ "resolves to root" ++ q := by
  refine ⟨rfl,
    ⟨⟨EKind.InvalidValue, 0,
      "Container bind mount " ++ b.src ++ " resolves to root "
      ++ realPath (resolvedBindDest root cwd b) ++ " (" ++ root ++ ")"⟩, ?_, rfl, ?_⟩⟩
  · simp [ChildBindDirectores, hesc]
  · refine ⟨"Container bind mount " ++ b.src ++ " ",
      " " ++ realPath (resolvedBindDest root cwd b) ++ " (" ++ root ++ ")", ?_⟩
    rw [show (" resolves to root " : String) = " " ++ ("resolves to root" ++ " ") by decide]
    simp only [String.append_assoc]

theorem bind_dest_check_witness :
    strStartsWith (((fun _ => "/x") : String → String)
        (resolvedBindDest "/a" "/w" ⟨"/s", "/d", true⟩)) "/a" = false ∧
    (∃ e, ChildBindDirectores "/a" "/w" (fun _ => "/x") true
        [(⟨"/s", "/d", true⟩ : BindEntryS)] = ([], some e) ∧
      e.kind = EKind.InvalidValue ∧ ∃ p q, e.msg = p ++ "resolves to root" ++ q) :=
  ⟨by decide,
   (bind_dest_check "/a" "/w" (fun _ => "/x") true ⟨"/s", "/d", true⟩ [] (by decide)).2⟩

/-- C8 counterexample: a bind_map entry with the relative destination "d"
and cwd "w" resolves to root/w/d, yet ChildRemountRootRo remounts that
very mount point read-only (the skip comparison uses the unresolved Dest),
contradicting the claim that bind_map targets are excluded and writable
bind targets stay writable. -/
theorem remountRo_bind_target_counterexample :
    bindDestComps ["r"] ["w"] ⟨⟨false, ["d"]⟩, false⟩ = ["r", "w", "d"] ∧
    ChildRemountRootRo true true ["r"] [⟨⟨false, ["d"]⟩, false⟩]
      [["r", "w", "d"]] = [["r", "w", "d"]] := by
  constructor
  · decide
  · decide

/-- innerPath yields some path exactly when root is a component prefix of
the mount point, and the result is the remainder. -/
theorem innerPath_eq_some (root m path : List String) :
    innerPath root m = some path ↔
      (root.isPrefixOf m = true ∧ path = m.drop root.length) := by
  unfold innerPath
  by_cases hp : root.isPrefixOf m = true
  · simp [hp, eq_comm]
  · simp [hp]

/-- C8 amended: when root_rdonly is set and loop is empty,
ChildRemountRootRo remounts read-only exactly the snapshot mount points
that lie inside root, have no restricted-proc path at or beneath them, and
whose root-relative path does not equal a bind_map destination as written
(absolute destinations therefore match their mount point; relative ones
never match and are remounted); with root_rdonly unset or a loop image
present it remounts nothing. -/
theorem remountRo_filter (rootRdOnly loopEmpty : Bool) (root : List String)
    (binds : List BindEntryC) (snapshot : List (List String))
    (m : List String) :
    m ∈ ChildRemountRootRo rootRdOnly loopEmpty root binds snapshot ↔
      (rootRdOnly = true ∧ loopEmpty = true ∧ m ∈ snapshot ∧
       root.isPrefixOf m = true ∧
       (∀ dir ∈ roproc, (m.drop root.length).isPrefixOf dir = false) ∧
       (∀ b ∈ binds, b.dest ≠ MPath.mk true (m.drop root.length))) := by
  cases rootRdOnly with
  | false => simp [ChildRemountRootRo]
  | true =>
    cases loopEmpty with
    | false => simp [ChildRemountRootRo]
    | true =>
      have hrep : ChildRemountRootRo true true root binds snapshot =
          snapshot.filter (fun m =>
            match innerPath root m with
            | none => false
            | some path =>
              (!(roproc.any fun dir => path.isPrefixOf dir)) &&
              !(binds.any fun b => b.dest == MPath.mk true path)) := rfl
      rw [hrep, List.mem_filter]
      constructor
      · rintro ⟨hm, hf⟩
        rcases hip : innerPath root m with _ | path
        · rw [hip] at hf
          simp at hf
        · rw [hip] at hf
          simp only [Bool.and_eq_true, Bool.not_eq_true', List.any_eq_false] at hf
          obtain ⟨hp, hpath⟩ := (innerPath_eq_some root m path).mp hip
          subst hpath
          refine ⟨rfl, rfl, hm, hp, fun dir hdir => Bool.eq_false_iff.mpr (hf.1 dir hdir),
            fun b hb => ?_⟩
          simpa using hf.2 b hb
      · rintro ⟨-, -, hm, hp, hro, hbi⟩
        refine ⟨hm, ?_⟩
        have hip : innerPath root m = some (m.drop root.length) :=
          (innerPath_eq_some root m _).mpr ⟨hp, rfl⟩
        rw [hip]
        simp only [Bool.and_eq_true, Bool.not_eq_true', List.any_eq_false]
        exact ⟨fun dir hdir => Bool.eq_false_iff.mp (hro dir hdir),
               fun b hb => by simpa using hbi b hb⟩

/-- C1: whenever the supervisor observes a deserialized error on the
SpawnPipe or a non-zero intermediate exit status, it SIGKILLs the reported
PID when positive, resets Pid to 0 and ExitStatus to -1, returns the
deserialized error verbatim (or a fabricated one when only the status was
non-zero), does not mark the handle Started and does not release the
TaskEnv; only when neither is observed does it mark the handle Started and
release the TaskEnv reference. -/
theorem start_finish_spec (h : Handle) (pidWord : Int) (deser : Option Err)
    (status errno : Int) :
    ((deser.isSome = true ∨ status ≠ 0) →
      (startFinish h pidWord deser status errno).kills =
        (if pidWord > 0 then [pidWord] else []) ∧
      (startFinish h pidWord deser status errno).handle.pid = 0 ∧
      (startFinish h pidWord deser status errno).handle.exitStatus = -1 ∧
      (startFinish h pidWord deser status errno).handle.state = h.state ∧
      (∀ e, deser = some e →
        (startFinish h pidWord deser status errno).result = some e) ∧
      ((startFinish h pidWord deser status errno).result).isSome = true ∧
      (startFinish h pidWord deser status errno).envReleased = false) ∧
    ((deser = none ∧ status = 0) →
      startFinish h pidWord deser status errno =
        { handle := { h with pid := pidWord, state := TState.Started },
          kills := [], result := none, envReleased := true }) := by
  constructor
  · intro hfail
    have hcond : (deser.isSome || status != 0) = true := by
      rcases hfail with hf | hf
      · simp [hf]
      · simp [hf]
    simp only [startFinish]
    rw [if_pos hcond]
    exact ⟨rfl, rfl, rfl, rfl, fun e he => by subst he; rfl, rfl, rfl⟩
  · rintro ⟨hd, hs⟩
    subst hd hs
    rfl

theorem start_finish_spec_witness :
    (((some (⟨EKind.Unknown, 5, "x"⟩ : Err)).isSome = true ∨ (0 : Int) ≠ 0) ∧
      (startFinish ⟨TState.Stopped, 0, 0, false⟩ 42
          (some ⟨EKind.Unknown, 5, "x"⟩) 0 7).kills = (if (42 : Int) > 0 then [(42 : Int)] else []) ∧
      (startFinish ⟨TState.Stopped, 0, 0, false⟩ 42
          (some ⟨EKind.Unknown, 5, "x"⟩) 0 7).handle.pid = 0) :=
  ⟨Or.inl (by decide),
   ((start_finish_spec ⟨TState.Stopped, 0, 0, false⟩ 42
        (some ⟨EKind.Unknown, 5, "x"⟩) 0 7).1 (Or.inl (by decide))).1,
   (((start_finish_spec ⟨TState.Stopped, 0, 0, false⟩ 42
        (some ⟨EKind.Unknown, 5, "x"⟩) 0 7).1 (Or.inl (by decide))).2).1⟩

/-- C2: on every exit path of the intermediate, the trace starts with
exactly one PID word -- -1 when the failure preceded clone, the clone
return value otherwise -- so the word precedes any serialized error bytes
and the exit, and no second PID word is ever written. -/
theorem intermediate_pid_first (cgErr mntErr stdioErr enterErr pipeErr : Option Err)
    (clonePid cloneErrno : Int) (netEnabled : Bool) (isoErr : Option Err)
    (syncRet : Int) :
    ∃ rest,
      intermediateTrace cgErr mntErr stdioErr enterErr pipeErr clonePid cloneErrno
          netEnabled isoErr syncRet =
        PEvent.pidWord
          (if cgErr.isSome = true ∨ mntErr.isSome = true ∨ stdioErr.isSome = true
              ∨ enterErr.isSome = true ∨ pipeErr.isSome = true
           then -1 else clonePid) :: rest ∧
      rest.all (fun ev => !isPidWord ev) = true ∧
      (∃ code, rest.getLast? = some (PEvent.exited code)) := by
  cases cgErr with
  | some e =>
    refine ⟨[.errBytes e, .exited 1], ?_, rfl, ⟨1, rfl⟩⟩
    simp [intermediateTrace, failTrace]
  | none =>
  cases mntErr with
  | some e =>
    refine ⟨[.errBytes e, .exited 1], ?_, rfl, ⟨1, rfl⟩⟩
    simp [intermediateTrace, failTrace]
  | none =>
  cases stdioErr with
  | some e =>
    refine ⟨[.errBytes e, .exited 1], ?_, rfl, ⟨1, rfl⟩⟩
    simp [intermediateTrace, failTrace]
  | none =>
  cases enterErr with
  | some e =>
    refine ⟨[.errBytes e, .exited 1], ?_, rfl, ⟨1, rfl⟩⟩
    simp [intermediateTrace, failTrace]
  | none =>
  cases pipeErr with
  | some e =>
    refine ⟨[.errBytes e, .exited 1], ?_, rfl, ⟨1, rfl⟩⟩
    simp [intermediateTrace, failTrace]
  | none =>
    by_cases hc : clonePid < 0
    · refine ⟨[.errBytes (cloneErr cloneErrno), .exited 1], ?_, rfl, ⟨1, rfl⟩⟩
      simp [intermediateTrace, hc]
    · rcases hni : (if netEnabled then isoErr else none) with _ | e
      · by_cases hs : syncRet = 4
        · refine ⟨[.syncSignal, .exited 0], ?_, rfl, ⟨0, rfl⟩⟩
          simp [intermediateTrace, hc, hni, hs]
        · refine ⟨[.errBytes (syncWriteErr syncRet 0), .exited 1], ?_, rfl, ⟨1, rfl⟩⟩
          simp [intermediateTrace, hc, hni, hs]
      · refine ⟨[.errBytes e, .exited 1], ?_, rfl, ⟨1, rfl⟩⟩
        simp [intermediateTrace, hc, hni]

/-- C3: the steps named by the claim occur in ChildCallback in exactly the
claimed relative order (childSteps additionally interleaves the
ChildPrepareLoop and ChildEnableNet steps the claim does not mention); the
pipeline is fail-fast: when every step before s succeeds and s fails with
e, exactly the steps up to and including s run, e is the returned error,
and the grandchild serializes e to the SpawnPipe and exits non-zero; and a
short read of the sync pipe fails immediately with the error whose message
is "partial read from child sync pipe", before any other step runs. -/
theorem childCallback_order_and_failfast :
    (∀ nm iso nn pm : Bool,
      (claimedSteps nm iso pm).Sublist (childSteps nm iso nn pm)) ∧
    (∀ (fails : CStep → Option Err) (l1 : List CStep) (s : CStep)
        (l2 : List CStep) (e : Err),
      (∀ t ∈ l1, fails t = none) → fails s = some e →
      runSteps fails (l1 ++ s :: l2) = (l1 ++ [s], some e) ∧
      childFnTrace (runSteps fails (l1 ++ s :: l2)) =
        [PEvent.errBytes e, PEvent.exited 1]) ∧
    (∀ (nm iso nn pm : Bool) (n errno : Int) (fails : CStep → Option Err),
      n ≠ 4 →
      ChildCallback nm iso nn pm n errno fails =
        ([CStep.syncRead], some (syncReadErr errno)) ∧
      (syncReadErr errno).msg = "partial read from child sync pipe") := by
  refine ⟨?_, ?_, ?_⟩
  · intro nm iso nn pm
    cases nm <;> cases iso <;> cases nn <;> cases pm <;> decide
  · intro fails l1 s l2 e h1 hs
    have hrun : ∀ (pre : List CStep), (∀ t ∈ pre, fails t = none) →
        runSteps fails (pre ++ s :: l2) = (pre ++ [s], some e) := by
      intro pre
      induction pre with
      | nil =>
        intro _
        simp [runSteps, hs]
      | cons t ts ih =>
        intro hpre
        have ht : fails t = none := hpre t (by simp)
        have ih' := ih (fun u hu => hpre u (by simp [hu]))
        simp [runSteps, ht, ih']
    have h := hrun l1 h1
    exact ⟨h, by rw [h]; rfl⟩
  · intro nm iso nn pm n errno fails hn
    constructor
    · simp [ChildCallback, childSteps, runSteps, childOracle, hn]
    · rfl

theorem childCallback_order_witness :
    ChildCallback false false false false 0 5 (fun _ => none) =
      ([CStep.syncRead], some (syncReadErr 5)) :=
  (childCallback_order_and_failfast.2.2 false false false false 0 5
    (fun _ => none) (by decide)).1

/-- Helper for C6: each public operation preserves the invariant under the
protocol side conditions. -/
theorem stepH_preserves (h : Handle) (op : HOp)
    (hInv : HInv h) (hv : ValidOp h op) : HInv (stepH h op) := by
  obtain ⟨st, pid, ex, rc⟩ := h
  cases op with
  | opStart early readOk pidWord deser status errno =>
    obtain ⟨hns, hpw⟩ := hv
    have hst : st = TState.Stopped := by
      cases st
      · rfl
      · exact absurd rfl hns
    subst hst
    simp only [stepH]
    by_cases he : early = true
    · rw [if_pos he]
      exact ⟨fun hc => (nomatch hc), fun _ => Or.inl rfl⟩
    · rw [if_neg he]
      by_cases hr : (!readOk) = true
      · rw [if_pos hr]
        exact ⟨fun hc => (nomatch hc), fun _ => Or.inl rfl⟩
      · rw [if_neg hr]
        simp only [startFinish]
        by_cases hcond : (deser.isSome || status != 0) = true
        · rw [if_pos hcond]
          exact ⟨fun hc => (nomatch hc), fun _ => Or.inl rfl⟩
        · rw [if_neg hcond]
          have hd : deser = none ∧ status = 0 := by
            simp only [Bool.or_eq_true, bne_iff_ne, not_or, Bool.not_eq_true,
                       Decidable.not_not] at hcond
            obtain ⟨h1, h2⟩ := hcond
            refine ⟨?_, h2⟩
            cases deser with
            | none => rfl
            | some e => simp at h1
          have hpos := hpw hd
          exact ⟨fun _ => ne_of_gt hpos, fun hc => nomatch hc⟩
  | opExit stx =>
    exact ⟨fun hc => (nomatch hc), fun _ => Or.inr rfl⟩
  | opRestore p =>
    exact ⟨fun _ => hv, fun hc => nomatch hc⟩
  | opKill sig => exact hInv
  | opHasCorrectParent => exact hInv
  | opFixCgroups => exact hInv
  | opHasCorrectFreezer g mi z =>
    simp only [stepH]
    by_cases hc : (!g && mi && !z) = true
    · rw [if_pos hc]
      exact ⟨fun hcs => (nomatch hcs), fun _ => Or.inl rfl⟩
    · rw [if_neg hc]
      exact hInv

/-- C6 amended: after any sequence of the public TaskHandle operations in
which Restore is only invoked with a non-zero pid, Start only on a handle
that is not currently Started, and Start's success branch only ever
observes a positive PID word (which the intermediate protocol guarantees),
a Started handle has a non-zero PID and a Stopped handle has PID zero or a
recorded exit status. -/
theorem handle_invariant_preserved (h : Handle) (ops : List HOp)
    (hInv : HInv h) (hval : ValidSeq h ops) : HInv (runH h ops) := by
  induction ops generalizing h with
  | nil => simpa [runH] using hInv
  | cons op ops ih =>
    obtain ⟨hv, hval'⟩ := hval
    have h2 : HInv (stepH h op) := stepH_preserves h op hInv hv
    have hfold : runH h (op :: ops) = runH (stepH h op) ops := rfl
    rw [hfold]
    exact ih (stepH h op) h2 hval'

theorem handle_invariant_preserved_witness :
    HInv (runH ⟨TState.Stopped, 0, 0, false⟩ [HOp.opRestore 5, HOp.opExit 3]) :=
  handle_invariant_preserved ⟨TState.Stopped, 0, 0, false⟩
    [HOp.opRestore 5, HOp.opExit 3]
    ⟨fun hc => (nomatch hc), fun _ => Or.inl rfl⟩
    ⟨(by decide : (5 : Int) ≠ 0), trivial, trivial⟩

/-- C6 counterexample: Restore(0) -- a public operation -- takes a handle
satisfying the invariant to a Started handle with PID 0, so the invariant
does not hold after arbitrary sequences of the public operations. -/
theorem handle_invariant_counterexample :
    HInv ⟨TState.Stopped, 0, 0, false⟩ ∧
    runH ⟨TState.Stopped, 0, 0, false⟩ [HOp.opRestore 0] =
      ⟨TState.Started, 0, 0, false⟩ ∧
    ¬ HInv ⟨TState.Started, 0, 0, false⟩ :=
  ⟨⟨fun hc => (nomatch hc), fun _ => Or.inl rfl⟩, rfl,
   fun hinv => hinv.1 rfl rfl⟩
